import Mathlib

/-!
Verification development for the abstract-robot-dynamics interfaces
(`src/interfaces/jrlDynamicRobot.h` and the humanoid extension header).

The repository publishes pure-virtual C++ interfaces: apart from the default
implementations of the property channel (`isSupported`, `getProperty`,
`setProperty`, which are defined inline in `jrlDynamicRobot.h`), no method
body is present in the sources. All other operations are therefore modelled
from the specification text and the interface documentation, as noted in the
doc comment of each definition. Real-valued quantities (C++ `double`) are
idealised as rational numbers.
-/

set_option autoImplicit false
set_option linter.unusedVariables false

namespace AbstractRobotDynamics

open scoped Matrix

/-! ## Robot state: configuration, velocity and acceleration vectors -/

/-- State held by a dynamic robot: its number of degrees of freedom and the
currently stored configuration, velocity and acceleration vectors. -/
structure RobotState where
  numberDof : Nat
  config : List ℚ
  velocity : List ℚ
  acceleration : List ℚ

/-- Modelled from the spec: setter `CjrlDynamicRobot::currentConfiguration(inConfig)`
(pure virtual in `src/interfaces/jrlDynamicRobot.h`). Per its documentation it
returns true on success and false when the dimension of the input vector does
not fit the number of degrees of freedom of the robot; on failure the stored
vector is not replaced. -/
def setCurrentConfiguration (r : RobotState) (inConfig : List ℚ) : Bool × RobotState :=
  if inConfig.length = r.numberDof then (true, { r with config := inConfig })
  else (false, r)

/-- Modelled from the spec: setter `CjrlDynamicRobot::currentVelocity(inVelocity)`,
same success/failure contract as the configuration setter. -/
def setCurrentVelocity (r : RobotState) (inVelocity : List ℚ) : Bool × RobotState :=
  if inVelocity.length = r.numberDof then (true, { r with velocity := inVelocity })
  else (false, r)

/-- Modelled from the spec: setter `CjrlDynamicRobot::currentAcceleration(inAcceleration)`,
same success/failure contract as the configuration setter. -/
def setCurrentAcceleration (r : RobotState) (inAcceleration : List ℚ) : Bool × RobotState :=
  if inAcceleration.length = r.numberDof then (true, { r with acceleration := inAcceleration })
  else (false, r)

/-- Getter `CjrlDynamicRobot::currentConfiguration()`: the stored configuration. -/
def currentConfiguration (r : RobotState) : List ℚ := r.config

/-- Getter `CjrlDynamicRobot::currentVelocity()`: the stored velocity. -/
def currentVelocity (r : RobotState) : List ℚ := r.velocity

/-- Getter `CjrlDynamicRobot::currentAcceleration()`: the stored acceleration. -/
def currentAcceleration (r : RobotState) : List ℚ := r.acceleration

/-! ## Property channel (base-class default implementations)

These three are the only functions of the repository with actual bodies:
`jrlDynamicRobot.h` defines them inline in the base class, each returning
`false` and touching nothing. -/

/-- Embedded from `src/interfaces/jrlDynamicRobot.h`:
`virtual bool isSupported(const std::string &inProperty) {return false;}`. -/
def isSupported (r : RobotState) (inProperty : String) : Bool := false

/-- Embedded from `src/interfaces/jrlDynamicRobot.h`:
`virtual bool getProperty(const std::string &inProperty, std::string &outValue)
{return false;}` — the output parameter is never written, so the model returns
it unchanged beside the status. -/
def getProperty (r : RobotState) (inProperty : String) (outValue : String) :
    Bool × String :=
  (false, outValue)

/-- Embedded from `src/interfaces/jrlDynamicRobot.h`:
`virtual bool setProperty(std::string &inProperty, const std::string &inValue)
{return false;}` — no robot state is touched, so the model returns the state
unchanged beside the status. -/
def setProperty (r : RobotState) (inProperty : String) (inValue : String) :
    Bool × RobotState :=
  (false, r)

/-! ## Fixed-joint registry -/

/-- Error taxonomy of the spec (section 7): dimension mismatches and
out-of-range ranks are reported to the caller. -/
inductive DynamicsError where
  | dimensionMismatch
  | outOfRange
  deriving DecidableEq

/-- Modelled from the spec: `CjrlDynamicRobot::addFixedJoint` (pure virtual).
The fixed-joint set holds each joint at most once; inserting a duplicate is a
no-op. Joints are identified by their index in the joint vector. -/
def addFixedJoint (fixedJoints : List Nat) (inFixedJoint : Nat) : List Nat :=
  if inFixedJoint ∈ fixedJoints then fixedJoints else fixedJoints ++ [inFixedJoint]

/-- Modelled from the spec: `CjrlDynamicRobot::removeFixedJoint` (pure virtual).
Removing a joint that is not registered is a no-op. -/
def removeFixedJoint (fixedJoints : List Nat) (inFixedJoint : Nat) : List Nat :=
  fixedJoints.erase inFixedJoint

/-- Modelled from the spec: `CjrlDynamicRobot::countFixedJoints` (pure virtual). -/
def countFixedJoints (fixedJoints : List Nat) : Nat := fixedJoints.length

/-- Modelled from the spec: `CjrlDynamicRobot::fixedJoint(inJointRank)` (pure
virtual); rank-indexed access into the fixed-joint set, failing with an
out-of-range error for a rank at or beyond `countFixedJoints`. -/
def fixedJoint (fixedJoints : List Nat) (inJointRank : Nat) : Except DynamicsError Nat :=
  if h : inJointRank < fixedJoints.length then .ok (fixedJoints.get ⟨inJointRank, h⟩)
  else .error .outOfRange

/-! ## Per-DOF bounds -/

/-- Modelled from the spec: the sentinel value returned by the bound accessors
for an out-of-range rank (the spec requires a documented sentinel; this model
documents it as 0). -/
def boundSentinel : ℚ := 0

/-- Static per-DOF limits of a robot, plus the coupled limits of the
two-argument overloads, which may depend on the rest of the configuration. -/
structure JointLimits where
  numberDof : Nat
  lower : List ℚ
  upper : List ℚ
  coupledLower : Nat → List ℚ → ℚ
  coupledUpper : Nat → List ℚ → ℚ

/-- Modelled from the spec: `CjrlDynamicRobot::upperBoundDof(inRankInConfiguration)`
(pure virtual); returns the static upper limit, or the documented sentinel if
the rank is out of range. -/
def upperBoundDof (r : JointLimits) (inRankInConfiguration : Nat) : ℚ :=
  if inRankInConfiguration < r.numberDof then
    r.upper.getD inRankInConfiguration boundSentinel
  else boundSentinel

/-- Modelled from the spec: `CjrlDynamicRobot::lowerBoundDof(inRankInConfiguration)`
(pure virtual); returns the static lower limit, or the documented sentinel if
the rank is out of range. -/
def lowerBoundDof (r : JointLimits) (inRankInConfiguration : Nat) : ℚ :=
  if inRankInConfiguration < r.numberDof then
    r.lower.getD inRankInConfiguration boundSentinel
  else boundSentinel

/-- Modelled from the spec: the two-argument overload
`CjrlDynamicRobot::upperBoundDof(inRankInConfiguration, inConfig)` (pure
virtual); computes a limit conditioned on the rest of the configuration, or
returns the documented sentinel if the rank is out of range. -/
def upperBoundDofUsingConfig (r : JointLimits) (inRankInConfiguration : Nat)
    (inConfig : List ℚ) : ℚ :=
  if inRankInConfiguration < r.numberDof then
    r.coupledUpper inRankInConfiguration inConfig
  else boundSentinel

/-- Modelled from the spec: the two-argument overload
`CjrlDynamicRobot::lowerBoundDof(inRankInConfiguration, inConfig)` (pure
virtual); same out-of-range behaviour as the upper-bound overload. -/
def lowerBoundDofUsingConfig (r : JointLimits) (inRankInConfiguration : Nat)
    (inConfig : List ℚ) : ℚ :=
  if inRankInConfiguration < r.numberDof then
    r.coupledLower inRankInConfiguration inConfig
  else boundSentinel

/-! ## Kinematic chain: joints between two joints

A joint of the kinematic tree is identified by its path of child indices from
the root joint; the root is the empty path, and the ancestors of a joint are
the proper prefixes of its path. -/

/-- A joint of the kinematic tree, identified by its path from the root. -/
abbrev JointPath := List Nat

/-- Lowest common ancestor of two joints: the longest common prefix of their
paths. -/
def lcaPath : JointPath → JointPath → JointPath
  | x :: xs, y :: ys => if x = y then x :: lcaPath xs ys else []
  | _, _ => []

/-- Walk from joint `j` up through its parents, stopping at (and excluding)
the ancestor `anc`: the branch of the kinematic tree between them, deepest
joint first. -/
def walkUp (j anc : JointPath) : List JointPath :=
  if h : anc.length < j.length then j :: walkUp j.dropLast anc else []
termination_by j.length
decreasing_by simpa [List.length_dropLast] using Nat.sub_lt (Nat.lt_of_le_of_lt (Nat.zero_le _) h) Nat.one_pos

/-- Modelled from the spec: `CjrlDynamicRobot::jointsBetween(inStartJoint, inEndJoint)`
(pure virtual); the ordered chain of joints whose motion affects the relative
kinematics of the two joints, obtained by walking each joint up to their
lowest common ancestor and concatenating the two branches (the branch under
the start joint is traversed upwards, the branch under the end joint
downwards). -/
def jointsBetween (inStartJoint inEndJoint : JointPath) : List JointPath :=
  let anc := lcaPath inStartJoint inEndJoint
  walkUp inStartJoint anc ++ (walkUp inEndJoint anc).reverse

/-- Reference description of a branch of the tree: the prefixes of `j` strictly
longer than the ancestor `anc`, shortest first — the descending chain from just
below `anc` down to `j` itself. -/
def branchBelow (anc j : JointPath) : List JointPath :=
  (List.range (j.length - anc.length)).map (fun i => j.take (anc.length + i + 1))

/-- Reference description of the ancestor path from the root down to a joint:
all nonempty prefixes of its path, shortest first (the root itself, having no
degree of freedom between itself and itself, is excluded). -/
def ancestorPathFromRoot (j : JointPath) : List JointPath :=
  (List.range j.length).map (fun i => j.take (i + 1))

theorem lcaPath_self (a : JointPath) : lcaPath a a = a := by
  induction a with
  | nil => rfl
  | cons x xs ih => simp [lcaPath, ih]

theorem walkUp_self (a : JointPath) : walkUp a a = [] := by
  rw [walkUp]
  simp

theorem branchBelow_dropLast (anc j : JointPath) (h : anc.length < j.length) :
    branchBelow anc j = branchBelow anc j.dropLast ++ [j] := by
  unfold branchBelow
  have hlen : j.dropLast.length = j.length - 1 := List.length_dropLast j
  have hn : j.length - anc.length = (j.dropLast.length - anc.length) + 1 := by
    rw [hlen]; omega
  rw [hn, List.range_succ, List.map_append, List.map_singleton]
  congr 1
  · apply List.map_congr_left
    intro i hi
    rw [List.mem_range] at hi
    rw [List.dropLast_eq_take, List.take_take]
    congr 1
    omega
  · congr 1
    have : anc.length + (j.dropLast.length - anc.length) + 1 = j.length := by
      rw [hlen]; omega
    rw [this, List.take_length]

theorem walkUp_eq_branchBelow (j anc : JointPath) :
    walkUp j anc = (branchBelow anc j).reverse := by
  rw [walkUp]
  by_cases h : anc.length < j.length
  · rw [dif_pos h, walkUp_eq_branchBelow j.dropLast anc,
      branchBelow_dropLast anc j h, List.reverse_append]
    rfl
  · rw [dif_neg h]
    have : j.length - anc.length = 0 := by omega
    simp [branchBelow, this]
termination_by j.length
decreasing_by simpa [List.length_dropLast] using Nat.sub_lt (Nat.lt_of_le_of_lt (Nat.zero_le _) h) Nat.one_pos

/-! ## Forward kinematics -/

/-- A kinematic tree of joints: each joint carries its number of degrees of
freedom (its contiguous sub-range of the configuration vector, laid out in
depth-first pre-order) and its ordered children. -/
inductive JTree where
  | node (dof : Nat) (children : List JTree)

mutual

/-- Total number of degrees of freedom of a kinematic tree. -/
def totalDof : JTree → Nat
  | .node d cs => d + totalDofList cs

/-- Total number of degrees of freedom of a forest. -/
def totalDofList : List JTree → Nat
  | [] => 0
  | t :: ts => totalDof t + totalDofList ts

end

/-- Sum of the slice of `q` of length `len` starting at `off`: the contribution
of one joint's degrees of freedom. -/
def sliceSum (q : List ℚ) (off len : Nat) : ℚ := ((q.drop off).take len).sum

mutual

/-- Top-down forward-kinematics traversal of a tree: for each joint, in
parent-before-child order, compose the parent's world quantity with the
joint's own contribution (the sum of its slice of the input vector — the
scalar abstraction of composing the parent pose with the joint's local
transform). Returns the per-joint world quantities in depth-first pre-order. -/
def fkTree (q : List ℚ) (parentPose : ℚ) (off : Nat) : JTree → List ℚ
  | .node d cs =>
    let pose := parentPose + sliceSum q off d
    pose :: fkForest q pose (off + d) cs

/-- Forward kinematics over a forest of sibling subtrees, advancing the
configuration offset past each subtree in turn. -/
def fkForest (q : List ℚ) (parentPose : ℚ) (off : Nat) : List JTree → List ℚ
  | [] => []
  | t :: ts => fkTree q parentPose off t ++ fkForest q parentPose (off + totalDof t) ts

end

/-- State of a robot undergoing forward kinematics: its kinematic tree, the
stored configuration, velocity and acceleration vectors, and the cached
per-joint kinematic state (world pose, twist, spatial acceleration — one
scalar per joint in the scalar abstraction, in depth-first pre-order). -/
structure FKRobot where
  tree : JTree
  config : List ℚ
  velocity : List ℚ
  acceleration : List ℚ
  poses : List ℚ
  twists : List ℚ
  spatialAccelerations : List ℚ

/-- Number of degrees of freedom of the robot: the sum of per-joint DOF counts. -/
def FKRobot.numberDof (r : FKRobot) : Nat := totalDof r.tree

/-- Whether the three stored input vectors all have length `numberDof`. -/
def dimensionsValid (r : FKRobot) : Bool :=
  r.config.length == r.numberDof && r.velocity.length == r.numberDof
    && r.acceleration.length == r.numberDof

/-- Modelled from the spec: `CjrlDynamicRobot::computeForwardKinematics()` (pure
virtual). If any stored input vector has length different from `numberDof` it
fails with a dimension mismatch and leaves every joint's cached kinematic state
untouched; otherwise it recomputes every joint's pose, twist and spatial
acceleration from the just-supplied vectors by a single top-down traversal. -/
def computeForwardKinematics (r : FKRobot) : Bool × FKRobot :=
  if dimensionsValid r then
    (true, { r with poses := fkTree r.config 0 0 r.tree,
                    twists := fkTree r.velocity 0 0 r.tree,
                    spatialAccelerations := fkTree r.acceleration 0 0 r.tree })
  else (false, r)

/-! ## Jacobian computation guard -/

/-- A dense matrix of the matrix abstraction layer, carrying its two sizes
(rows, columns) and its row-major entries. -/
structure MatrixNxP where
  size1 : Nat
  size2 : Nat
  entries : List (List ℚ)

/-- A robot as seen by the Jacobian engine: its number of degrees of freedom
and the entry-wise Jacobian of a control frame, as a function of the start
joint, end joint, local point, free-flyer option, row and column. -/
structure JacobianRobot where
  numberDof : Nat
  jacEntry : Nat → Nat → (ℚ × ℚ × ℚ) → Bool → Nat → Nat → ℚ

/-- Number of columns `getJacobian` requires of its output matrix:
`numberDof()` when the start free flyer is included, `numberDof() - 6`
otherwise. -/
def requiredJacobianCols (ndof : Nat) (inIncludeStartFreeFlyer : Bool) : Nat :=
  if inIncludeStartFreeFlyer then ndof else ndof - 6

/-- Write a block of `ncols` columns starting at column `offset` into a
matrix, leaving every entry outside the block (in particular every column
before `offset`) untouched. -/
def writeBlock (out : MatrixNxP) (offset ncols : Nat) (f : Nat → Nat → ℚ) : MatrixNxP :=
  { out with entries :=
      (List.range out.size1).map (fun i =>
        (List.range out.size2).map (fun j =>
          if offset ≤ j ∧ j < offset + ncols then f i (j - offset)
          else ((out.entries.getD i []).getD j 0))) }

/-- Modelled from the spec: `CjrlDynamicRobot::getJacobian(inStartJoint,
inEndJoint, inFrameLocalPosition, outjacobian, offset, inIncludeStartFreeFlyer)`
(pure virtual). Returns false, leaving the output matrix unmodified, when the
matrix has fewer than the required number of columns; otherwise writes the
computed Jacobian into the matrix starting at column `offset` and returns
true. -/
def getJacobian (r : JacobianRobot) (inStartJoint inEndJoint : Nat)
    (inFrameLocalPosition : ℚ × ℚ × ℚ) (outjacobian : MatrixNxP)
    (offset : Nat) (inIncludeStartFreeFlyer : Bool) : Bool × MatrixNxP :=
  let required := requiredJacobianCols r.numberDof inIncludeStartFreeFlyer
  if outjacobian.size2 < required then (false, outjacobian)
  else
    (true, writeBlock outjacobian offset required
      (r.jacEntry inStartJoint inEndJoint inFrameLocalPosition inIncludeStartFreeFlyer))

/-! ## Inertia matrix -/

/-- A rigid body of a robot with `n` degrees of freedom, as seen by the
inertia-matrix builder: its mass, the linear and angular Jacobians of its
centre of mass at the current configuration, and its 3×3 inertia tensor. -/
structure RobotBody (n : Nat) where
  mass : ℚ
  jacobianLinear : Matrix (Fin 3) (Fin n) ℚ
  jacobianAngular : Matrix (Fin 3) (Fin n) ℚ
  inertia : Matrix (Fin 3) (Fin 3) ℚ

/-- Contribution of one body to the generalized mass matrix:
`Jlinᵀ · mass · Jlin + Jangᵀ · inertia · Jang`, with the scalar mass placed as
the diagonal matrix `mass · I₃`. -/
def bodyInertiaContribution {n : Nat} (b : RobotBody n) : Matrix (Fin n) (Fin n) ℚ :=
  b.jacobianLinearᵀ * Matrix.diagonal (fun _ => b.mass) * b.jacobianLinear
    + b.jacobianAngularᵀ * b.inertia * b.jacobianAngular

/-- Modelled from the spec: `CjrlDynamicRobot::computeInertiaMatrix()` (pure
virtual). Assembles the `numberDof × numberDof` generalized mass matrix as the
sum over all bodies of the body-Jacobian contraction of mass and inertia,
evaluated at the current configuration; the result is what `inertiaMatrix()`
then returns. -/
def computeInertiaMatrix {n : Nat} (bodies : List (RobotBody n)) :
    Matrix (Fin n) (Fin n) ℚ :=
  (bodies.map bodyInertiaContribution).sum

theorem bodyInertiaContribution_posSemidef {n : Nat} (b : RobotBody n)
    (hm : 0 ≤ b.mass) (hI : b.inertia.PosSemidef) :
    (bodyInertiaContribution b).PosSemidef := by
  have hdiag : (Matrix.diagonal (fun _ : Fin 3 => b.mass)).PosSemidef :=
    Matrix.PosSemidef.diagonal (fun _ => hm)
  have h1 : (b.jacobianLinearᴴ * Matrix.diagonal (fun _ : Fin 3 => b.mass)
      * b.jacobianLinear).PosSemidef :=
    hdiag.conjTranspose_mul_mul_same b.jacobianLinear
  have h2 : (b.jacobianAngularᴴ * b.inertia * b.jacobianAngular).PosSemidef :=
    hI.conjTranspose_mul_mul_same b.jacobianAngular
  have e1 : b.jacobianLinearᴴ = b.jacobianLinearᵀ :=
    Matrix.conjTranspose_eq_transpose_of_trivial _
  have e2 : b.jacobianAngularᴴ = b.jacobianAngularᵀ :=
    Matrix.conjTranspose_eq_transpose_of_trivial _
  rw [e1] at h1
  rw [e2] at h2
  exact h1.add h2

theorem computeInertiaMatrix_posSemidef {n : Nat} (bodies : List (RobotBody n))
    (h : ∀ b ∈ bodies, 0 ≤ b.mass ∧ b.inertia.PosSemidef) :
    (computeInertiaMatrix bodies).PosSemidef := by
  induction bodies with
  | nil => exact Matrix.PosSemidef.zero
  | cons b bs ih =>
    have hb := h b (List.mem_cons_self b bs)
    have hcontrib := bodyInertiaContribution_posSemidef b hb.1 hb.2
    have hrest := ih (fun x hx => h x (List.mem_cons_of_mem b hx))
    simpa [computeInertiaMatrix] using hcontrib.add hrest

/-! ## Claim theorems -/

/-- C1: for every start joint, end joint, local point and output matrix,
`getJacobian` returns false whenever the output matrix has fewer than
`numberDof()` columns when `inIncludeStartFreeFlyer` is true, or fewer than
`numberDof() - 6` columns when it is false, and in that failure case the
output matrix is returned completely unmodified. -/
theorem getJacobian_size_guard (r : JacobianRobot) (s e : Nat) (p : ℚ × ℚ × ℚ)
    (out : MatrixNxP) (off : Nat) :
    (out.size2 < r.numberDof → getJacobian r s e p out off true = (false, out))
    ∧ (out.size2 < r.numberDof - 6 → getJacobian r s e p out off false = (false, out)) := by
  constructor <;> intro h <;> simp [getJacobian, requiredJacobianCols, h]

theorem getJacobian_size_guard_witness :
    getJacobian ⟨10, fun _ _ _ _ _ _ => 0⟩ 0 1 (0, 0, 0) ⟨6, 3, []⟩ 0 true
      = (false, ⟨6, 3, []⟩)
    ∧ getJacobian ⟨10, fun _ _ _ _ _ _ => 0⟩ 0 1 (0, 0, 0) ⟨6, 3, []⟩ 0 false
      = (false, ⟨6, 3, []⟩) :=
  ⟨(getJacobian_size_guard ⟨10, fun _ _ _ _ _ _ => 0⟩ 0 1 (0, 0, 0) ⟨6, 3, []⟩ 0).1
      (by decide),
   (getJacobian_size_guard ⟨10, fun _ _ _ _ _ _ => 0⟩ 0 1 (0, 0, 0) ⟨6, 3, []⟩ 0).2
      (by decide)⟩

/-- C2: the setters for configuration, velocity and acceleration return false
exactly when the input vector's length differs from `numberDof()` and true
when it matches; on failure the wrong-sized vector is not silently accepted
(the stored state is unchanged). -/
theorem currentSetters_fail_iff_dimension_mismatch (r : RobotState) (v : List ℚ) :
    ((setCurrentConfiguration r v).1 = false ↔ v.length ≠ r.numberDof)
    ∧ ((setCurrentConfiguration r v).1 = true ↔ v.length = r.numberDof)
    ∧ ((setCurrentVelocity r v).1 = false ↔ v.length ≠ r.numberDof)
    ∧ ((setCurrentVelocity r v).1 = true ↔ v.length = r.numberDof)
    ∧ ((setCurrentAcceleration r v).1 = false ↔ v.length ≠ r.numberDof)
    ∧ ((setCurrentAcceleration r v).1 = true ↔ v.length = r.numberDof)
    ∧ (v.length ≠ r.numberDof → (setCurrentConfiguration r v).2 = r
        ∧ (setCurrentVelocity r v).2 = r ∧ (setCurrentAcceleration r v).2 = r) := by
  unfold setCurrentConfiguration setCurrentVelocity setCurrentAcceleration
  split <;> simp_all

theorem currentSetters_fail_iff_dimension_mismatch_witness :
    ((setCurrentConfiguration ⟨2, [], [], []⟩ [1]).1 = false ↔ ([1] : List ℚ).length ≠ 2)
    ∧ ((setCurrentConfiguration ⟨2, [], [], []⟩ [1]).2 = ⟨2, [], [], []⟩
        ∧ (setCurrentVelocity ⟨2, [], [], []⟩ [1]).2 = ⟨2, [], [], []⟩
        ∧ (setCurrentAcceleration ⟨2, [], [], []⟩ [1]).2 = ⟨2, [], [], []⟩) :=
  ⟨(currentSetters_fail_iff_dimension_mismatch ⟨2, [], [], []⟩ [1]).1,
   (currentSetters_fail_iff_dimension_mismatch ⟨2, [], [], []⟩ [1]).2.2.2.2.2.2
      (by decide)⟩

/-- C3: `computeForwardKinematics` is all-or-nothing: if any stored input
vector has length different from `numberDof()` it fails and every joint's
previously computed kinematic state is untouched; if it succeeds, every
joint's pose, twist and spatial acceleration is exactly what the top-down
traversal computes from the just-supplied vectors. -/
theorem computeForwardKinematics_allOrNothing (r : FKRobot) :
    (dimensionsValid r = false → computeForwardKinematics r = (false, r))
    ∧ (dimensionsValid r = true →
        computeForwardKinematics r =
          (true, { r with poses := fkTree r.config 0 0 r.tree,
                          twists := fkTree r.velocity 0 0 r.tree,
                          spatialAccelerations := fkTree r.acceleration 0 0 r.tree })) := by
  constructor <;> intro h <;> simp [computeForwardKinematics, h]

theorem computeForwardKinematics_allOrNothing_witness :
    computeForwardKinematics ⟨.node 1 [], [], [], [], [1], [1], [1]⟩
      = (false, ⟨.node 1 [], [], [], [], [1], [1], [1]⟩)
    ∧ computeForwardKinematics ⟨.node 1 [], [2], [3], [4], [], [], []⟩
      = (true, ⟨.node 1 [], [2], [3], [4],
                fkTree [2] 0 0 (.node 1 []),
                fkTree [3] 0 0 (.node 1 []),
                fkTree [4] 0 0 (.node 1 [])⟩) :=
  ⟨(computeForwardKinematics_allOrNothing ⟨.node 1 [], [], [], [], [1], [1], [1]⟩).1
      (by simp [dimensionsValid, FKRobot.numberDof, totalDof, totalDofList]),
   (computeForwardKinematics_allOrNothing ⟨.node 1 [], [2], [3], [4], [], [], []⟩).2
      (by simp [dimensionsValid, FKRobot.numberDof, totalDof, totalDofList])⟩

/-- C4: `jointsBetween a a` is empty; `jointsBetween root leaf` is exactly the
ancestor path from the root down to the leaf; and for two joints neither of
which is an ancestor of the other, the result is the concatenation of the two
branches obtained by walking each joint up to their lowest common ancestor
(each branch described independently as the prefixes of the joint's path
strictly below the common ancestor). -/
theorem jointsBetween_correct (a b leaf : JointPath) :
    jointsBetween a a = []
    ∧ jointsBetween [] leaf = ancestorPathFromRoot leaf
    ∧ (a.isPrefixOf b = false → b.isPrefixOf a = false →
        jointsBetween a b =
          (branchBelow (lcaPath a b) a).reverse ++ branchBelow (lcaPath a b) b) := by
  refine ⟨?_, ?_, ?_⟩
  · simp [jointsBetween, lcaPath_self, walkUp_self]
  · have hl : lcaPath [] leaf = [] := by cases leaf <;> simp [lcaPath]
    simp [jointsBetween, hl, walkUp_self, walkUp_eq_branchBelow,
      branchBelow, ancestorPathFromRoot]
  · intro h1 h2
    simp [jointsBetween, walkUp_eq_branchBelow]

theorem jointsBetween_correct_witness :
    jointsBetween [0] [0] = []
    ∧ jointsBetween [] [1, 2] = ancestorPathFromRoot [1, 2]
    ∧ jointsBetween [0] [1] =
        (branchBelow (lcaPath [0] [1]) [0]).reverse ++ branchBelow (lcaPath [0] [1]) [1] :=
  ⟨(jointsBetween_correct [0] [1] [1, 2]).1,
   (jointsBetween_correct [0] [1] [1, 2]).2.1,
   (jointsBetween_correct [0] [1] [1, 2]).2.2 (by decide) (by decide)⟩

/-- C5: for every mass-consistent model (nonnegative masses, positive
semi-definite body inertia tensors) the `numberDof × numberDof` matrix
produced by `computeInertiaMatrix` is symmetric and positive semi-definite. -/
theorem computeInertiaMatrix_symmetric_and_posSemidef {n : Nat}
    (bodies : List (RobotBody n))
    (h : ∀ b ∈ bodies, 0 ≤ b.mass ∧ b.inertia.PosSemidef) :
    (computeInertiaMatrix bodies)ᵀ = computeInertiaMatrix bodies
    ∧ (computeInertiaMatrix bodies).PosSemidef := by
  have hp := computeInertiaMatrix_posSemidef bodies h
  refine ⟨?_, hp⟩
  rw [← Matrix.conjTranspose_eq_transpose_of_trivial]
  exact hp.isHermitian

theorem computeInertiaMatrix_symmetric_and_posSemidef_witness :
    (computeInertiaMatrix [(⟨1, 0, 0, 1⟩ : RobotBody 2)])ᵀ
      = computeInertiaMatrix [(⟨1, 0, 0, 1⟩ : RobotBody 2)]
    ∧ (computeInertiaMatrix [(⟨1, 0, 0, 1⟩ : RobotBody 2)]).PosSemidef :=
  computeInertiaMatrix_symmetric_and_posSemidef [(⟨1, 0, 0, 1⟩ : RobotBody 2)]
    (fun b hb => by
      rw [List.mem_singleton] at hb
      subst hb
      exact ⟨by norm_num, Matrix.PosSemidef.one⟩)

/-- C6: redundant fixed-joint mutations are no-ops: adding a joint already in
the fixed-joint set leaves the set and `countFixedJoints` unchanged, and
removing a joint not in the set leaves the set unchanged. -/
theorem fixedJoints_redundant_mutations_noop (l : List Nat) (j : Nat) :
    (j ∈ l → addFixedJoint l j = l
      ∧ countFixedJoints (addFixedJoint l j) = countFixedJoints l)
    ∧ (j ∉ l → removeFixedJoint l j = l) := by
  constructor
  · intro h
    constructor <;> simp [addFixedJoint, h]
  · intro h
    simp [removeFixedJoint, List.erase_of_not_mem h]

theorem fixedJoints_redundant_mutations_noop_witness :
    (addFixedJoint [1, 2] 1 = [1, 2]
      ∧ countFixedJoints (addFixedJoint [1, 2] 1) = countFixedJoints [1, 2])
    ∧ removeFixedJoint [1, 2] 5 = [1, 2] :=
  ⟨(fixedJoints_redundant_mutations_noop [1, 2] 1).1 (by decide),
   (fixedJoints_redundant_mutations_noop [1, 2] 5).2 (by decide)⟩

/-- C7: rank-indexed access `fixedJoint(i)` for any rank at or beyond
`countFixedJoints()` fails with an out-of-range error reported to the caller
rather than returning a joint. -/
theorem fixedJoint_out_of_range (l : List Nat) (i : Nat)
    (h : countFixedJoints l ≤ i) :
    fixedJoint l i = .error .outOfRange := by
  have hn : ¬ i < l.length := by
    simp only [countFixedJoints] at h
    omega
  simp [fixedJoint, hn]

theorem fixedJoint_out_of_range_witness :
    fixedJoint [3] 1 = .error .outOfRange :=
  fixedJoint_out_of_range [3] 1 (by decide)

/-- C8: for every rank outside `[0, numberDof())`, both the one-argument and
the two-argument overloads of `upperBoundDof` and `lowerBoundDof` return the
documented sentinel value, signaling no error through any other channel. -/
theorem boundDof_out_of_range_sentinel (r : JointLimits) (rank : Nat) (c : List ℚ)
    (h : r.numberDof ≤ rank) :
    upperBoundDof r rank = boundSentinel
    ∧ lowerBoundDof r rank = boundSentinel
    ∧ upperBoundDofUsingConfig r rank c = boundSentinel
    ∧ lowerBoundDofUsingConfig r rank c = boundSentinel := by
  have hn : ¬ rank < r.numberDof := by omega
  refine ⟨?_, ?_, ?_, ?_⟩ <;>
    simp [upperBoundDof, lowerBoundDof, upperBoundDofUsingConfig,
      lowerBoundDofUsingConfig, hn]

theorem boundDof_out_of_range_sentinel_witness :
    upperBoundDof ⟨2, [], [], fun _ _ => 0, fun _ _ => 0⟩ 5 = boundSentinel
    ∧ lowerBoundDof ⟨2, [], [], fun _ _ => 0, fun _ _ => 0⟩ 5 = boundSentinel
    ∧ upperBoundDofUsingConfig ⟨2, [], [], fun _ _ => 0, fun _ _ => 0⟩ 5 [] = boundSentinel
    ∧ lowerBoundDofUsingConfig ⟨2, [], [], fun _ _ => 0, fun _ _ => 0⟩ 5 [] = boundSentinel :=
  boundDof_out_of_range_sentinel ⟨2, [], [], fun _ _ => 0, fun _ _ => 0⟩ 5 []
    (by decide)

/-- C9: in the base-class default implementation of the property channel,
`isSupported` returns false for every property name, `getProperty` returns
false leaving the output value unmodified, and `setProperty` returns false
changing no robot state. -/
theorem propertyChannel_defaults (r : RobotState) (p v out : String) :
    isSupported r p = false
    ∧ getProperty r p out = (false, out)
    ∧ setProperty r p v = (false, r) :=
  ⟨rfl, rfl, rfl⟩

/-- C10: setter/getter round trip: for every vector of length `numberDof()`,
each of the three setters succeeds and the corresponding getter then returns
exactly the vector that was set. -/
theorem setters_getters_roundtrip (r : RobotState) (v : List ℚ)
    (h : v.length = r.numberDof) :
    (setCurrentConfiguration r v).1 = true
    ∧ currentConfiguration (setCurrentConfiguration r v).2 = v
    ∧ (setCurrentVelocity r v).1 = true
    ∧ currentVelocity (setCurrentVelocity r v).2 = v
    ∧ (setCurrentAcceleration r v).1 = true
    ∧ currentAcceleration (setCurrentAcceleration r v).2 = v := by
  refine ⟨?_, ?_, ?_, ?_, ?_, ?_⟩ <;>
    simp [setCurrentConfiguration, setCurrentVelocity, setCurrentAcceleration,
      currentConfiguration, currentVelocity, currentAcceleration, h]

theorem setters_getters_roundtrip_witness :
    (setCurrentConfiguration ⟨1, [], [], []⟩ [5]).1 = true
    ∧ currentConfiguration (setCurrentConfiguration ⟨1, [], [], []⟩ [5]).2 = [5]
    ∧ (setCurrentVelocity ⟨1, [], [], []⟩ [5]).1 = true
    ∧ currentVelocity (setCurrentVelocity ⟨1, [], [], []⟩ [5]).2 = [5]
    ∧ (setCurrentAcceleration ⟨1, [], [], []⟩ [5]).1 = true
    ∧ currentAcceleration (setCurrentAcceleration ⟨1, [], [], []⟩ [5]).2 = [5] :=
  setters_getters_roundtrip ⟨1, [], [], []⟩ [5] (by decide)

end AbstractRobotDynamics
